import Mathlib

/-!
# Node event handlers of the ingress controller

A shallow embedding of `pkg/controller/ingress/eventhandlers/node.go`.

The handler reacts to node events by listing the ingresses of the cache and
adding one reconcile request per ingress group to the work queue.  The Go code
only talks to collaborators that live in other packages (the cache, the group
builder, the class filter, the eligibility predicate, the logger and the
queue).  Each of them is a parameter of the embedding.  Every call the Go code
makes to one of these six is recorded, in program order, in a trace of `Call`s;
the conversions of values (`String`, `EncodeToReconcileRequest`,
`NamespacedName`) are applied in place.
-/

namespace eventhandlers

/-! ## Data model -/

/-- The functions of other packages that `node.go` calls.  None of them is
defined in this file of the repository, so they are parameters:
`backend.IsNodeSuitableAsTrafficProxy`, `ingress.MatchesIngressClass`,
`k8s.NamespacedName(ing).String()`, `GroupID.String()` and
`GroupID.EncodeToReconcileRequest()`. -/
structure Externals (Node Ingress GroupID Request : Type) where
  IsNodeSuitableAsTrafficProxy : Node → Bool
  MatchesIngressClass : String → Ingress → Bool
  NamespacedName : Ingress → String
  GroupIDString : GroupID → String
  EncodeToReconcileRequest : GroupID → Request

/-- The Go struct `enqueueRequestsForNodeEvent`.  `ingGroupBuilder` is the
method `BuildGroupID`, which returns a group identifier together with an
optional error (Go returns both values, also when the error is not nil).
`k8sCache` is the outcome of `k8sCache.List`: an error, or the items it stored
in the ingress list. -/
structure enqueueRequestsForNodeEvent (Ingress GroupID Err : Type) where
  ingGroupBuilder : Ingress → GroupID × Option Err
  ingressClass : String
  k8sCache : Except Err (List Ingress)

/-- The dynamic payload of an event (`runtime.Object`): a `*corev1.Node`, or an
object of another kind, on which the type assertion of the handlers fails. -/
inductive RuntimeObject (Node : Type) where
  | node (n : Node)
  | other
deriving DecidableEq

/-- The Go struct `event.CreateEvent`, reduced to the field the handler reads. -/
structure CreateEvent (Node : Type) where
  Object : RuntimeObject Node

/-- The Go struct `event.UpdateEvent`, reduced to the fields the handler reads. -/
structure UpdateEvent (Node : Type) where
  ObjectOld : RuntimeObject Node
  ObjectNew : RuntimeObject Node

/-- The Go struct `event.DeleteEvent`, reduced to the field the handler reads. -/
structure DeleteEvent (Node : Type) where
  Object : RuntimeObject Node

/-- The Go struct `event.GenericEvent`; the handler ignores it altogether. -/
structure GenericEvent (Node : Type) where
  Object : RuntimeObject Node

/-- One call from `node.go` to a collaborator, with its arguments. -/
inductive Call (Node Ingress Request Err : Type) where
  | isNodeSuitableAsTrafficProxy (n : Node)
  | cacheList
  | matchesIngressClass (ingressClass : String) (ing : Ingress)
  | buildGroupID (ing : Ingress)
  | loggerError (err : Err) (msg : String) (keysAndValues : List (String × String))
  | queueAdd (req : Request)
deriving DecidableEq

/-- The trace of a handler: its calls to the collaborators, in program order. -/
abbrev Trace (Node Ingress Request Err : Type) := List (Call Node Ingress Request Err)

section Defs

variable {Node Ingress GroupID Request Err : Type}

/-! ## Reading a trace -/

/-- The arguments of the `queue.Add` calls of a trace, in order. -/
def queueAdds : Trace Node Ingress Request Err → List Request
  | [] => []
  | Call.queueAdd r :: t => r :: queueAdds t
  | _ :: t => queueAdds t

/-- The errors reported through `nodeLogger.Error`, in order, each with its
message and its key/value pairs. -/
def loggedErrors : Trace Node Ingress Request Err → List (Err × String × List (String × String))
  | [] => []
  | Call.loggerError e msg kv :: t => (e, msg, kv) :: loggedErrors t
  | _ :: t => loggedErrors t

/-- Whether the trace calls `k8sCache.List`. -/
def callsList : Trace Node Ingress Request Err → Bool
  | [] => false
  | Call.cacheList :: _ => true
  | _ :: t => callsList t

/-- Whether the trace calls `ingress.MatchesIngressClass`. -/
def callsClassFilter : Trace Node Ingress Request Err → Bool
  | [] => false
  | Call.matchesIngressClass _ _ :: _ => true
  | _ :: t => callsClassFilter t

/-- Whether the trace calls `BuildGroupID`. -/
def callsGroupBuilder : Trace Node Ingress Request Err → Bool
  | [] => false
  | Call.buildGroupID _ :: _ => true
  | _ :: t => callsGroupBuilder t

/-- Whether the trace calls `backend.IsNodeSuitableAsTrafficProxy`. -/
def callsEligibility : Trace Node Ingress Request Err → Bool
  | [] => false
  | Call.isNodeSuitableAsTrafficProxy _ :: _ => true
  | _ :: t => callsEligibility t

/-! ## The enqueue pass -/

/-- The call `nodeLogger.Error(err, "failed to build ingress group ID", ...)`
when `BuildGroupID` returned an error, and nothing otherwise.  The Go code has
no `continue` in this branch. -/
def reportBuildError (x : Externals Node Ingress GroupID Request) (ing : Ingress) :
    Option Err → Trace Node Ingress Request Err
  | none => []
  | some err =>
    [Call.loggerError err "failed to build ingress group ID" [("ingress", x.NamespacedName ing)]]

/-- The loop `for i := range ingList.Items` of `enqueueImpactedIngresses`.
`groupIDs` is the string set `sets.NewString()`, kept as the list of the
strings inserted so far: `Has` is membership, `Insert` puts the string in
front.  An item that fails the class filter takes the `continue`; a build error
is logged and the loop body goes on with the identifier that came with it. -/
def enqueueLoop (x : Externals Node Ingress GroupID Request)
    (h : enqueueRequestsForNodeEvent Ingress GroupID Err) :
    List String → List Ingress → Trace Node Ingress Request Err
  | _, [] => []
  | groupIDs, ing :: items =>
    Call.matchesIngressClass h.ingressClass ing ::
      (if !x.MatchesIngressClass h.ingressClass ing then
        enqueueLoop x h groupIDs items
      else
        let built := h.ingGroupBuilder ing
        let groupID := built.1
        let err := built.2
        Call.buildGroupID ing ::
          (reportBuildError x ing err ++
            (if !decide (x.GroupIDString groupID ∈ groupIDs) then
              Call.queueAdd (x.EncodeToReconcileRequest groupID) ::
                enqueueLoop x h (x.GroupIDString groupID :: groupIDs) items
            else
              enqueueLoop x h groupIDs items)))

/-- The method `enqueueImpactedIngresses`. -/
def enqueueImpactedIngresses (x : Externals Node Ingress GroupID Request)
    (h : enqueueRequestsForNodeEvent Ingress GroupID Err) : Trace Node Ingress Request Err :=
  Call.cacheList ::
    (match h.k8sCache with
     | Except.error err => [Call.loggerError err "failed to list Ingresses" []]
     | Except.ok items => enqueueLoop x h [] items)

/-! ## The four handlers

A handler returns `none` when a type assertion on the payload panics, and
`some` of its trace when it returns normally. -/

/-- The method `Create`. -/
def Create (x : Externals Node Ingress GroupID Request)
    (h : enqueueRequestsForNodeEvent Ingress GroupID Err) (e : CreateEvent Node) :
    Option (Trace Node Ingress Request Err) :=
  match e.Object with
  | RuntimeObject.other => none
  | RuntimeObject.node node =>
    some (Call.isNodeSuitableAsTrafficProxy node ::
      (if x.IsNodeSuitableAsTrafficProxy node then enqueueImpactedIngresses x h else []))

/-- The method `Update`.  Both type assertions come first, then the two calls
of the eligibility predicate, left to right. -/
def Update (x : Externals Node Ingress GroupID Request)
    (h : enqueueRequestsForNodeEvent Ingress GroupID Err) (e : UpdateEvent Node) :
    Option (Trace Node Ingress Request Err) :=
  match e.ObjectOld, e.ObjectNew with
  | RuntimeObject.node nodeOld, RuntimeObject.node nodeNew =>
    some (Call.isNodeSuitableAsTrafficProxy nodeOld :: Call.isNodeSuitableAsTrafficProxy nodeNew ::
      (if x.IsNodeSuitableAsTrafficProxy nodeOld != x.IsNodeSuitableAsTrafficProxy nodeNew then
        enqueueImpactedIngresses x h
      else []))
  | _, _ => none

/-- The method `Delete`. -/
def Delete (x : Externals Node Ingress GroupID Request)
    (h : enqueueRequestsForNodeEvent Ingress GroupID Err) (e : DeleteEvent Node) :
    Option (Trace Node Ingress Request Err) :=
  match e.Object with
  | RuntimeObject.other => none
  | RuntimeObject.node node =>
    some (Call.isNodeSuitableAsTrafficProxy node ::
      (if x.IsNodeSuitableAsTrafficProxy node then enqueueImpactedIngresses x h else []))

/-- The method `Generic`. -/
def Generic (x : Externals Node Ingress GroupID Request)
    (h : enqueueRequestsForNodeEvent Ingress GroupID Err) (_e : GenericEvent Node) :
    Option (Trace Node Ingress Request Err) :=
  some (enqueueImpactedIngresses x h)

/-! ## Reference functions for stating the properties -/

/-- The group identifiers `BuildGroupID` returns for the items that pass the
class filter, in listing order (whether or not it also returned an error). -/
def builtGroupIDs (x : Externals Node Ingress GroupID Request)
    (h : enqueueRequestsForNodeEvent Ingress GroupID Err) (items : List Ingress) : List GroupID :=
  (items.filter (fun ing => x.MatchesIngressClass h.ingressClass ing)).map
    (fun ing => (h.ingGroupBuilder ing).1)

/-- Keeps the identifiers whose string form is neither in `seen` nor the string
form of an earlier identifier of the list. -/
def firstOccurrences (key : GroupID → String) : List String → List GroupID → List GroupID
  | _, [] => []
  | seen, g :: gs =>
    if key g ∈ seen then firstOccurrences key seen gs
    else g :: firstOccurrences key (key g :: seen) gs

/-- The ingresses handed to `BuildGroupID`, in order. -/
def groupBuilderCalls : Trace Node Ingress Request Err → List Ingress
  | [] => []
  | Call.buildGroupID ing :: t => ing :: groupBuilderCalls t
  | _ :: t => groupBuilderCalls t

/-- The error reports a pass over `items` owes to group-build failures: one for
each item that matches the class and on which `BuildGroupID` returns an error,
in listing order, carrying that error and the namespaced name of the item. -/
def buildErrorReports (x : Externals Node Ingress GroupID Request)
    (h : enqueueRequestsForNodeEvent Ingress GroupID Err) (items : List Ingress) :
    List (Err × String × List (String × String)) :=
  (items.filter (fun ing => x.MatchesIngressClass h.ingressClass ing)).filterMap
    (fun ing => (h.ingGroupBuilder ing).2.map
      (fun err => (err, "failed to build ingress group ID", [("ingress", x.NamespacedName ing)])))

/-- The ordering rule in the words of the specification: the first identifier
is kept, and every later identifier with its string form is removed from the
rest, which is treated the same way. -/
def keepFirstPerString (key : GroupID → String) : List GroupID → List GroupID
  | [] => []
  | g :: gs => g :: (keepFirstPerString key gs).filter (fun g0 => decide (key g0 ≠ key g))

/-- The four kinds of event the watch delivers to the handler. -/
inductive Event (Node : Type) where
  | create (e : CreateEvent Node)
  | update (e : UpdateEvent Node)
  | delete (e : DeleteEvent Node)
  | generic (e : GenericEvent Node)

/-- Delivery of one event to the method of its kind. -/
def handle (x : Externals Node Ingress GroupID Request)
    (h : enqueueRequestsForNodeEvent Ingress GroupID Err) :
    Event Node → Option (Trace Node Ingress Request Err)
  | Event.create e => Create x h e
  | Event.update e => Update x h e
  | Event.delete e => Delete x h e
  | Event.generic e => Generic x h e

/-- Delivery of several events, one after the other, to the same handler value.
The struct `enqueueRequestsForNodeEvent` has no field that a method writes, and
`groupIDs` is a local variable of `enqueueImpactedIngresses`, so nothing but
the calls already made is carried from one event to the next: the trace is the
concatenation of the traces.  A panic ends the run. -/
def handleAll (x : Externals Node Ingress GroupID Request)
    (h : enqueueRequestsForNodeEvent Ingress GroupID Err) :
    List (Event Node) → Option (Trace Node Ingress Request Err)
  | [] => some []
  | e :: es =>
    match handle x h e with
    | none => none
    | some t =>
      match handleAll x h es with
      | none => none
      | some ts => some (t ++ ts)

/-- The guards of the four methods: whether an event with node payloads makes
its method call `enqueueImpactedIngresses`. -/
def isRelevant (x : Externals Node Ingress GroupID Request) : Event Node → Bool
  | Event.create ⟨RuntimeObject.node node⟩ => x.IsNodeSuitableAsTrafficProxy node
  | Event.update ⟨RuntimeObject.node nodeOld, RuntimeObject.node nodeNew⟩ =>
    x.IsNodeSuitableAsTrafficProxy nodeOld != x.IsNodeSuitableAsTrafficProxy nodeNew
  | Event.delete ⟨RuntimeObject.node node⟩ => x.IsNodeSuitableAsTrafficProxy node
  | Event.generic _ => true
  | _ => false

/-- The handler `h` with the listing replaced by a successful one of `items`. -/
def withListing (h : enqueueRequestsForNodeEvent Ingress GroupID Err) (items : List Ingress) :
    enqueueRequestsForNodeEvent Ingress GroupID Err :=
  ⟨h.ingGroupBuilder, h.ingressClass, Except.ok items⟩

/-! ## A small concrete instance

Nodes are their eligibility flag, ingresses and group identifiers are numbers,
a reconcile request is the number of its group.  Ingresses below 10 carry the
class `alb`.  The identifiers 1 and 2 have the string forms `g1` and `g2`, every
other identifier has the empty string form, so distinct identifiers can share
one. -/

/-- String forms of the example group identifiers. -/
def demoGroupName : Nat → String
  | 1 => "g1"
  | 2 => "g2"
  | _ => ""

/-- Namespaced names of the example ingresses. -/
def demoIngressName : Nat → String
  | 0 => "default/a"
  | 1 => "default/b"
  | 2 => "default/c"
  | _ => "default/x"

/-- The example collaborators. -/
def demoExternals : Externals Bool Nat Nat Nat :=
  ⟨fun node => node, fun cls ing => cls == "alb" && decide (ing < 10), demoIngressName,
    demoGroupName, fun g => g⟩

/-- A group builder that never fails: ingresses 0 and 1 belong to group 1,
ingress 2 to group 2, ingress 3 to group 3, every other one to group 0. -/
def demoBuilder : Nat → Nat × Option String
  | 0 => (1, none)
  | 1 => (1, none)
  | 2 => (2, none)
  | 3 => (3, none)
  | _ => (0, none)

/-- A group builder that fails on ingress 7, returning the zero identifier
next to the error, and behaves as `demoBuilder` elsewhere. -/
def demoFailingBuilder : Nat → Nat × Option String
  | 7 => (0, some "no group")
  | ing => demoBuilder ing

/-- A group builder that fails on ingress 12 and puts ingress 13 in group 2;
neither ingress carries the class `alb`.  It behaves as `demoBuilder` elsewhere. -/
def demoOtherClassBuilder : Nat → Nat × Option String
  | 12 => (5, some "no group")
  | 13 => (2, none)
  | ing => demoBuilder ing

/-- The example handler for a builder and a listing outcome. -/
def demoHandler (build : Nat → Nat × Option String) (listing : Except String (List Nat)) :
    enqueueRequestsForNodeEvent Nat Nat String :=
  ⟨build, "alb", listing⟩

end Defs

/-! ## Lemmas on traces and on the loop -/

section Lemmas

variable {Node Ingress GroupID Request Err : Type}

theorem queueAdds_append (t u : Trace Node Ingress Request Err) :
    queueAdds (t ++ u) = queueAdds t ++ queueAdds u := by
  induction t with
  | nil => rfl
  | cons c t ih => cases c <;> simp [queueAdds, ih]

theorem queueAdds_reportBuildError (x : Externals Node Ingress GroupID Request) (ing : Ingress)
    (err : Option Err) :
    queueAdds (reportBuildError x ing err : Trace Node Ingress Request Err) = [] := by
  cases err <;> rfl

/-- The `queue.Add` calls of the loop are the encodings of the first
occurrences, by string form, of the identifiers built for the matching items. -/
theorem queueAdds_enqueueLoop (x : Externals Node Ingress GroupID Request)
    (h : enqueueRequestsForNodeEvent Ingress GroupID Err) (items : List Ingress) :
    ∀ groupIDs : List String,
      queueAdds (enqueueLoop x h groupIDs items : Trace Node Ingress Request Err) =
        (firstOccurrences x.GroupIDString groupIDs (builtGroupIDs x h items)).map
          x.EncodeToReconcileRequest := by
  induction items with
  | nil => intro groupIDs; rfl
  | cons ing items ih =>
    intro groupIDs
    by_cases hm : x.MatchesIngressClass h.ingressClass ing = true
    · by_cases hs : x.GroupIDString (h.ingGroupBuilder ing).1 ∈ groupIDs
      · simp [enqueueLoop, builtGroupIDs, firstOccurrences, queueAdds, queueAdds_append,
          queueAdds_reportBuildError, hm, hs, ih groupIDs]
      · simp [enqueueLoop, builtGroupIDs, firstOccurrences, queueAdds, queueAdds_append,
          queueAdds_reportBuildError, hm, hs, ih (x.GroupIDString (h.ingGroupBuilder ing).1 :: groupIDs)]
    · simp [enqueueLoop, builtGroupIDs, firstOccurrences, queueAdds, hm, ih groupIDs]

/-- The `queue.Add` calls of a pass whose listing succeeds. -/
theorem queueAdds_pass_ok (x : Externals Node Ingress GroupID Request)
    (h : enqueueRequestsForNodeEvent Ingress GroupID Err) (items : List Ingress)
    (hl : h.k8sCache = Except.ok items) :
    queueAdds (enqueueImpactedIngresses x h : Trace Node Ingress Request Err) =
      (firstOccurrences x.GroupIDString [] (builtGroupIDs x h items)).map
        x.EncodeToReconcileRequest := by
  simp [enqueueImpactedIngresses, hl, queueAdds, queueAdds_enqueueLoop]

/-- The `queue.Add` calls of a pass whose listing fails. -/
theorem queueAdds_pass_error (x : Externals Node Ingress GroupID Request)
    (h : enqueueRequestsForNodeEvent Ingress GroupID Err) (err : Err)
    (hl : h.k8sCache = Except.error err) :
    queueAdds (enqueueImpactedIngresses x h : Trace Node Ingress Request Err) = [] := by
  simp [enqueueImpactedIngresses, hl, queueAdds]

/-! ## Lemmas on first occurrences -/

theorem firstOccurrences_subset (key : GroupID → String) (gs : List GroupID) :
    ∀ (seen : List String) (g : GroupID), g ∈ firstOccurrences key seen gs → g ∈ gs := by
  induction gs with
  | nil => intro seen g hg; simp [firstOccurrences] at hg
  | cons a gs ih =>
    intro seen g hg
    by_cases hs : key a ∈ seen
    · simp only [firstOccurrences, hs, if_true] at hg
      exact List.mem_cons_of_mem _ (ih seen g hg)
    · simp only [firstOccurrences, hs, if_false, List.mem_cons] at hg
      rcases hg with rfl | hg
      · exact List.mem_cons_self _ _
      · exact List.mem_cons_of_mem _ (ih _ g hg)

theorem firstOccurrences_not_seen (key : GroupID → String) (gs : List GroupID) :
    ∀ (seen : List String) (g : GroupID), g ∈ firstOccurrences key seen gs → key g ∉ seen := by
  induction gs with
  | nil => intro seen g hg; simp [firstOccurrences] at hg
  | cons a gs ih =>
    intro seen g hg
    by_cases hs : key a ∈ seen
    · simp only [firstOccurrences, hs, if_true] at hg
      exact ih seen g hg
    · simp only [firstOccurrences, hs, if_false, List.mem_cons] at hg
      rcases hg with rfl | hg
      · exact hs
      · intro hmem
        exact ih _ g hg (List.mem_cons_of_mem _ hmem)

theorem firstOccurrences_nodup (key : GroupID → String) (gs : List GroupID) :
    ∀ seen : List String, ((firstOccurrences key seen gs).map key).Nodup := by
  induction gs with
  | nil => intro seen; simp [firstOccurrences]
  | cons a gs ih =>
    intro seen
    by_cases hs : key a ∈ seen
    · simp only [firstOccurrences, hs, if_true]
      exact ih seen
    · simp only [firstOccurrences, hs, if_false, List.map_cons, List.nodup_cons]
      refine ⟨?_, ih _⟩
      intro hmem
      obtain ⟨g, hg, hk⟩ := List.mem_map.1 hmem
      exact firstOccurrences_not_seen key gs _ g hg (by simp [hk])

theorem firstOccurrences_covers (key : GroupID → String) (gs : List GroupID) :
    ∀ (seen : List String) (g : GroupID), g ∈ gs →
      key g ∈ seen ∨ ∃ g0, g0 ∈ firstOccurrences key seen gs ∧ key g0 = key g := by
  induction gs with
  | nil => intro seen g hg; simp at hg
  | cons a gs ih =>
    intro seen g hg
    by_cases hs : key a ∈ seen
    · simp only [firstOccurrences, hs, if_true]
      rcases List.mem_cons.1 hg with rfl | hg
      · exact Or.inl hs
      · exact ih seen g hg
    · simp only [firstOccurrences, hs, if_false, List.mem_cons]
      rcases List.mem_cons.1 hg with rfl | hg
      · exact Or.inr ⟨g, Or.inl rfl, rfl⟩
      · rcases ih (key a :: seen) g hg with hk | ⟨g0, hg0, hk⟩
        · rcases List.mem_cons.1 hk with hk | hk
          · exact Or.inr ⟨a, Or.inl rfl, hk.symm⟩
          · exact Or.inl hk
        · exact Or.inr ⟨g0, Or.inr hg0, hk⟩

/-- The number of first occurrences is the number of string forms that are new. -/
theorem firstOccurrences_length (key : GroupID → String) (gs : List GroupID) :
    ∀ seen : List String,
      (firstOccurrences key seen gs).length = ((gs.map key).toFinset \ seen.toFinset).card := by
  induction gs with
  | nil => intro seen; simp [firstOccurrences]
  | cons a gs ih =>
    intro seen
    by_cases hs : key a ∈ seen
    · simp only [firstOccurrences, hs, if_true, ih seen, List.map_cons, List.toFinset_cons]
      congr 1
      ext s
      simp only [Finset.mem_sdiff, Finset.mem_insert, List.mem_toFinset]
      constructor
      · rintro ⟨h1, h2⟩; exact ⟨Or.inr h1, h2⟩
      · rintro ⟨h1 | h1, h2⟩
        · exact absurd (h1 ▸ hs) h2
        · exact ⟨h1, h2⟩
    · simp only [firstOccurrences, hs, if_false, List.length_cons, ih (key a :: seen),
        List.map_cons, List.toFinset_cons]
      have hnot : key a ∉ (gs.map key).toFinset \ insert (key a) seen.toFinset := by
        simp
      rw [← Finset.card_insert_of_not_mem hnot]
      congr 1
      ext s
      simp only [Finset.mem_sdiff, Finset.mem_insert, List.mem_toFinset]
      constructor
      · rintro (h1 | ⟨h1, h2⟩)
        · exact ⟨Or.inl h1, h1 ▸ hs⟩
        · exact ⟨Or.inr h1, fun h3 => h2 (Or.inr h3)⟩
      · rintro ⟨h1 | h1, h2⟩
        · exact Or.inl h1
        · by_cases hsa : s = key a
          · exact Or.inl hsa
          · exact Or.inr ⟨h1, fun h3 => h3.elim hsa h2⟩

theorem builtGroupIDs_perm (x : Externals Node Ingress GroupID Request)
    (h : enqueueRequestsForNodeEvent Ingress GroupID Err) {items items0 : List Ingress}
    (hp : items0.Perm items) : (builtGroupIDs x h items0).Perm (builtGroupIDs x h items) :=
  (hp.filter _).map _

theorem firstOccurrences_sublist (key : GroupID → String) (gs : List GroupID) :
    ∀ seen : List String, (firstOccurrences key seen gs).Sublist gs := by
  induction gs with
  | nil => intro seen; simp [firstOccurrences]
  | cons a gs ih =>
    intro seen
    by_cases hs : key a ∈ seen
    · simp only [firstOccurrences, hs, if_true]
      exact (ih seen).cons a
    · simp only [firstOccurrences, hs, if_false]
      exact (ih _).cons₂ a

/-- When the string form separates the identifiers of the list, every one of
them is a first occurrence. -/
theorem firstOccurrences_mem_iff (key : GroupID → String) (gs : List GroupID)
    (hinj : ∀ a, a ∈ gs → ∀ b, b ∈ gs → key a = key b → a = b) (g : GroupID) :
    g ∈ firstOccurrences key [] gs ↔ g ∈ gs := by
  constructor
  · exact firstOccurrences_subset key gs [] g
  · intro hg
    rcases firstOccurrences_covers key gs [] g hg with hk | ⟨g0, hg0, hk⟩
    · simp at hk
    · have h0 : g0 ∈ gs := firstOccurrences_subset key gs [] g0 hg0
      rw [← hinj g0 h0 g hg hk]
      exact hg0

/-- The first occurrences carry every string form of the list, and no other. -/
theorem firstOccurrences_keys (key : GroupID → String) (gs : List GroupID) (s : String) :
    s ∈ (firstOccurrences key [] gs).map key ↔ s ∈ gs.map key := by
  constructor
  · intro hs
    obtain ⟨g, hg, hk⟩ := List.mem_map.1 hs
    exact List.mem_map.2 ⟨g, firstOccurrences_subset key gs [] g hg, hk⟩
  · intro hs
    obtain ⟨g, hg, hk⟩ := List.mem_map.1 hs
    rcases firstOccurrences_covers key gs [] g hg with hseen | ⟨g0, hg0, hk0⟩
    · simp at hseen
    · exact List.mem_map.2 ⟨g0, hg0, hk0.trans hk⟩

/-- The number of `queue.Add` calls of a pass over a successful listing is the
number of distinct string forms among the identifiers built. -/
theorem queueAdds_length (x : Externals Node Ingress GroupID Request)
    (h : enqueueRequestsForNodeEvent Ingress GroupID Err) (items : List Ingress)
    (hl : h.k8sCache = Except.ok items) :
    (queueAdds (enqueueImpactedIngresses x h : Trace Node Ingress Request Err)).length =
      ((builtGroupIDs x h items).map x.GroupIDString).toFinset.card := by
  rw [queueAdds_pass_ok x h items hl, List.length_map, firstOccurrences_length]
  simp

/-- In every pass the requests added are the encodings of identifiers that were
built in the pass, in order, with pairwise distinct string forms. -/
theorem queueAdds_distinct (x : Externals Node Ingress GroupID Request)
    (h : enqueueRequestsForNodeEvent Ingress GroupID Err) :
    ∃ ids : List GroupID,
      queueAdds (enqueueImpactedIngresses x h : Trace Node Ingress Request Err) =
        ids.map x.EncodeToReconcileRequest ∧
      (ids.map x.GroupIDString).Nodup ∧
      ∀ items, h.k8sCache = Except.ok items → ids.Sublist (builtGroupIDs x h items) := by
  cases hl : h.k8sCache with
  | error err =>
    exact ⟨[], by simp [queueAdds_pass_error x h err hl], by simp, fun items hi => by simp⟩
  | ok items =>
    refine ⟨firstOccurrences x.GroupIDString [] (builtGroupIDs x h items),
      queueAdds_pass_ok x h items hl, firstOccurrences_nodup _ _ _, ?_⟩
    intro items0 hi
    cases hi
    exact firstOccurrences_sublist _ _ _

theorem callsEligibility_append (t u : Trace Node Ingress Request Err) :
    callsEligibility (t ++ u) = (callsEligibility t || callsEligibility u) := by
  induction t with
  | nil => rfl
  | cons c t ih => cases c <;> simp [callsEligibility, ih]

theorem callsEligibility_enqueueLoop (x : Externals Node Ingress GroupID Request)
    (h : enqueueRequestsForNodeEvent Ingress GroupID Err) (items : List Ingress) :
    ∀ groupIDs : List String,
      callsEligibility (enqueueLoop x h groupIDs items : Trace Node Ingress Request Err) =
        false := by
  induction items with
  | nil => intro groupIDs; rfl
  | cons ing items ih =>
    intro groupIDs
    have hrep : callsEligibility
        (reportBuildError x ing (h.ingGroupBuilder ing).2 : Trace Node Ingress Request Err) =
          false := by
      cases (h.ingGroupBuilder ing).2 <;> rfl
    by_cases hm : x.MatchesIngressClass h.ingressClass ing = true
    · by_cases hs : x.GroupIDString (h.ingGroupBuilder ing).1 ∈ groupIDs
      · simp [enqueueLoop, callsEligibility, callsEligibility_append, hrep, hm, hs, ih]
      · simp [enqueueLoop, callsEligibility, callsEligibility_append, hrep, hm, hs, ih]
    · simp [enqueueLoop, callsEligibility, hm, ih]

theorem callsEligibility_pass (x : Externals Node Ingress GroupID Request)
    (h : enqueueRequestsForNodeEvent Ingress GroupID Err) :
    callsEligibility (enqueueImpactedIngresses x h : Trace Node Ingress Request Err) = false := by
  cases hl : h.k8sCache with
  | error err => simp [enqueueImpactedIngresses, hl, callsEligibility]
  | ok items =>
    simp [enqueueImpactedIngresses, hl, callsEligibility, callsEligibility_enqueueLoop]

/-! ## Lemmas on error reports and builder calls -/

theorem loggedErrors_append (t u : Trace Node Ingress Request Err) :
    loggedErrors (t ++ u) = loggedErrors t ++ loggedErrors u := by
  induction t with
  | nil => rfl
  | cons c t ih => cases c <;> simp [loggedErrors, ih]

/-- The error reports of the loop do not depend on the dedup set. -/
theorem loggedErrors_enqueueLoop (x : Externals Node Ingress GroupID Request)
    (h : enqueueRequestsForNodeEvent Ingress GroupID Err) (items : List Ingress) :
    ∀ groupIDs : List String,
      loggedErrors (enqueueLoop x h groupIDs items : Trace Node Ingress Request Err) =
        buildErrorReports x h items := by
  induction items with
  | nil => intro groupIDs; rfl
  | cons ing items ih =>
    intro groupIDs
    by_cases hm : x.MatchesIngressClass h.ingressClass ing = true
    · by_cases hs : x.GroupIDString (h.ingGroupBuilder ing).1 ∈ groupIDs
      · cases he : (h.ingGroupBuilder ing).2 <;>
          simp [enqueueLoop, buildErrorReports, loggedErrors, loggedErrors_append,
            reportBuildError, hm, hs, he, ih groupIDs]
      · cases he : (h.ingGroupBuilder ing).2 <;>
          simp [enqueueLoop, buildErrorReports, loggedErrors, loggedErrors_append,
            reportBuildError, hm, hs, he,
            ih (x.GroupIDString (h.ingGroupBuilder ing).1 :: groupIDs)]
    · simp [enqueueLoop, buildErrorReports, loggedErrors, hm, ih groupIDs]

theorem loggedErrors_pass_ok (x : Externals Node Ingress GroupID Request)
    (h : enqueueRequestsForNodeEvent Ingress GroupID Err) (items : List Ingress)
    (hl : h.k8sCache = Except.ok items) :
    loggedErrors (enqueueImpactedIngresses x h : Trace Node Ingress Request Err) =
      buildErrorReports x h items := by
  simp [enqueueImpactedIngresses, hl, loggedErrors, loggedErrors_enqueueLoop]

theorem groupBuilderCalls_append (t u : Trace Node Ingress Request Err) :
    groupBuilderCalls (t ++ u) = groupBuilderCalls t ++ groupBuilderCalls u := by
  induction t with
  | nil => rfl
  | cons c t ih => cases c <;> simp [groupBuilderCalls, ih]

/-- The loop calls the group builder on the items that match the class, and on
no other. -/
theorem groupBuilderCalls_enqueueLoop (x : Externals Node Ingress GroupID Request)
    (h : enqueueRequestsForNodeEvent Ingress GroupID Err) (items : List Ingress) :
    ∀ groupIDs : List String,
      groupBuilderCalls (enqueueLoop x h groupIDs items : Trace Node Ingress Request Err) =
        items.filter (fun ing => x.MatchesIngressClass h.ingressClass ing) := by
  induction items with
  | nil => intro groupIDs; rfl
  | cons ing items ih =>
    intro groupIDs
    have hrep : groupBuilderCalls
        (reportBuildError x ing (h.ingGroupBuilder ing).2 : Trace Node Ingress Request Err) =
          [] := by
      cases (h.ingGroupBuilder ing).2 <;> rfl
    by_cases hm : x.MatchesIngressClass h.ingressClass ing = true
    · by_cases hs : x.GroupIDString (h.ingGroupBuilder ing).1 ∈ groupIDs
      · simp [enqueueLoop, groupBuilderCalls, groupBuilderCalls_append, hrep, hm, hs, ih]
      · simp [enqueueLoop, groupBuilderCalls, groupBuilderCalls_append, hrep, hm, hs, ih]
    · simp [enqueueLoop, groupBuilderCalls, hm, ih]

theorem builtGroupIDs_filter (x : Externals Node Ingress GroupID Request)
    (h : enqueueRequestsForNodeEvent Ingress GroupID Err) (items : List Ingress) :
    builtGroupIDs x h (items.filter (fun ing => x.MatchesIngressClass h.ingressClass ing)) =
      builtGroupIDs x h items := by
  simp [builtGroupIDs, List.filter_filter]

theorem buildErrorReports_filter (x : Externals Node Ingress GroupID Request)
    (h : enqueueRequestsForNodeEvent Ingress GroupID Err) (items : List Ingress) :
    buildErrorReports x h (items.filter (fun ing => x.MatchesIngressClass h.ingressClass ing)) =
      buildErrorReports x h items := by
  simp [buildErrorReports, List.filter_filter]

theorem builtGroupIDs_append (x : Externals Node Ingress GroupID Request)
    (h : enqueueRequestsForNodeEvent Ingress GroupID Err) (l1 l2 : List Ingress) :
    builtGroupIDs x h (l1 ++ l2) = builtGroupIDs x h l1 ++ builtGroupIDs x h l2 := by
  simp [builtGroupIDs, List.filter_append]

theorem builtGroupIDs_length (x : Externals Node Ingress GroupID Request)
    (h : enqueueRequestsForNodeEvent Ingress GroupID Err) (items : List Ingress) :
    (builtGroupIDs x h items).length =
      (items.filter (fun ing => x.MatchesIngressClass h.ingressClass ing)).length := by
  simp [builtGroupIDs]

/-! ## Lemmas on the ordering rule -/

/-- The dedup of the loop agrees with the ordering rule of the specification. -/
theorem firstOccurrences_eq_keepFirst (key : GroupID → String) (gs : List GroupID) :
    ∀ seen : List String,
      firstOccurrences key seen gs =
        (keepFirstPerString key gs).filter (fun g => decide (key g ∉ seen)) := by
  induction gs with
  | nil => intro seen; rfl
  | cons a gs ih =>
    intro seen
    by_cases hs : key a ∈ seen
    · simp only [firstOccurrences, hs, if_true, keepFirstPerString, ih seen]
      rw [List.filter_cons_of_neg (by simpa using hs), List.filter_filter]
      apply List.filter_congr
      intro g _
      by_cases hg : key g ∈ seen
      · simp [hg]
      · have hne : key g ≠ key a := fun heq => hg (heq ▸ hs)
        simp [hg, hne]
    · simp only [firstOccurrences, hs, if_false, keepFirstPerString, ih (key a :: seen)]
      rw [List.filter_cons_of_pos (by simpa using hs), List.filter_filter]
      congr 1
      apply List.filter_congr
      intro g _
      simp only [List.mem_cons, not_or, Bool.decide_and, Bool.and_comm, decide_not, ne_eq]

theorem firstOccurrences_nil_eq_keepFirst (key : GroupID → String) (gs : List GroupID) :
    firstOccurrences key [] gs = keepFirstPerString key gs := by
  rw [firstOccurrences_eq_keepFirst]
  simp

/-- The dedup over a listing in two parts: the second part starts from the
string forms the first part has inserted. -/
theorem firstOccurrences_append (key : GroupID → String) (l1 l2 : List GroupID) :
    ∀ seen : List String,
      firstOccurrences key seen (l1 ++ l2) =
        firstOccurrences key seen l1 ++
          firstOccurrences key (((firstOccurrences key seen l1).map key).reverse ++ seen) l2 := by
  induction l1 with
  | nil => intro seen; simp [firstOccurrences]
  | cons a l1 ih =>
    intro seen
    by_cases hs : key a ∈ seen
    · simp only [List.cons_append, firstOccurrences, hs, if_true]
      exact ih seen
    · have hstep := ih (key a :: seen)
      rw [List.cons_append]
      simp only [firstOccurrences, hs, if_false, List.map_cons, List.reverse_cons,
        List.append_assoc, List.singleton_append, List.nil_append]
      rw [hstep, List.cons_append]

/-! ## Lemmas on the delivery of events -/

/-- A relevant event makes its method run the pass, after calls of the
eligibility predicate only. -/
theorem handle_relevant (x : Externals Node Ingress GroupID Request)
    (h : enqueueRequestsForNodeEvent Ingress GroupID Err) (e : Event Node)
    (hr : isRelevant x e = true) :
    ∃ pre : Trace Node Ingress Request Err,
      handle x h e = some (pre ++ enqueueImpactedIngresses x h) ∧ queueAdds pre = [] := by
  cases e with
  | create e =>
    obtain ⟨obj⟩ := e
    cases obj with
    | other => simp [isRelevant] at hr
    | node n =>
      simp only [isRelevant] at hr
      exact ⟨[Call.isNodeSuitableAsTrafficProxy n], by simp [handle, Create, hr], rfl⟩
  | update e =>
    obtain ⟨o1, o2⟩ := e
    cases o1 with
    | other => simp [isRelevant] at hr
    | node n1 =>
      cases o2 with
      | other => simp [isRelevant] at hr
      | node n2 =>
        simp only [isRelevant] at hr
        exact ⟨[Call.isNodeSuitableAsTrafficProxy n1, Call.isNodeSuitableAsTrafficProxy n2],
          by simp [handle, Update, hr], rfl⟩
  | delete e =>
    obtain ⟨obj⟩ := e
    cases obj with
    | other => simp [isRelevant] at hr
    | node n =>
      simp only [isRelevant] at hr
      exact ⟨[Call.isNodeSuitableAsTrafficProxy n], by simp [handle, Delete, hr], rfl⟩
  | generic e => exact ⟨[], by simp [handle, Generic], rfl⟩

/-- The identifiers built in a pass depend on the builder only through its
results on the listed items that match the class. -/
theorem builtGroupIDs_congr (x : Externals Node Ingress GroupID Request)
    (h h0 : enqueueRequestsForNodeEvent Ingress GroupID Err) (items : List Ingress)
    (hc : h0.ingressClass = h.ingressClass)
    (hb : ∀ ing, ing ∈ items → x.MatchesIngressClass h.ingressClass ing = true →
      (h0.ingGroupBuilder ing).1 = (h.ingGroupBuilder ing).1) :
    builtGroupIDs x h0 items = builtGroupIDs x h items := by
  unfold builtGroupIDs
  rw [hc]
  apply List.map_congr_left
  intro ing hing
  obtain ⟨hi, hm⟩ := List.mem_filter.1 hing
  exact hb ing hi (by simpa using hm)

end Lemmas

/-! ## The properties of the specification -/

section Claims

variable {Node Ingress GroupID Request Err : Type}

/-- C1, as stated, fails on the set of requests.  The ingresses 3 and 4 match
the class and build without error; their identifiers 3 and 0 share one string
form, so they collapse into one group and each order gives one `queue.Add`
call.  Listed as 3, 4 the pass submits the request of identifier 3; listed as
4, 3 it submits the request of identifier 0. -/
theorem request_set_depends_on_listing_order :
    (∀ ing, ing ∈ ([3, 4] : List Nat) →
      demoExternals.MatchesIngressClass
        (demoHandler demoBuilder (Except.ok [3, 4])).ingressClass ing = true →
      ((demoHandler demoBuilder (Except.ok [3, 4])).ingGroupBuilder ing).2 = none) ∧
    ((builtGroupIDs demoExternals (demoHandler demoBuilder (Except.ok [3, 4])) [3, 4]).map
      demoExternals.GroupIDString).dedup.length = 1 ∧
    List.Perm [4, 3] [3, 4] ∧
    queueAdds (enqueueImpactedIngresses demoExternals
        (demoHandler demoBuilder (Except.ok [3, 4])) : Trace Bool Nat Nat String) = [3] ∧
    queueAdds (enqueueImpactedIngresses demoExternals
        (withListing (demoHandler demoBuilder (Except.ok [3, 4])) [4, 3]) :
        Trace Bool Nat Nat String) = [0] ∧
    ¬ ∀ r, r ∈ queueAdds (enqueueImpactedIngresses demoExternals
          (withListing (demoHandler demoBuilder (Except.ok [3, 4])) [4, 3]) :
          Trace Bool Nat Nat String) ↔
        r ∈ queueAdds (enqueueImpactedIngresses demoExternals
          (demoHandler demoBuilder (Except.ok [3, 4])) : Trace Bool Nat Nat String) := by
  refine ⟨by decide, by decide, List.Perm.swap 3 4 [], by decide, by decide, ?_⟩
  intro hall
  have h3 := (hall 3).2 (by decide)
  revert h3
  decide

/-- C1, amended: when the listing succeeds, the group builder succeeds on every
item that matches the class, and the identifiers of those items have `K`
distinct string forms, the pass makes exactly `K` `queue.Add` calls.  The pass
over any permutation of the listing makes `K` calls too, and the identifiers
it submits have the same set of string forms.  The set of requests is the same
as well whenever two built identifiers with one string form have one request. -/
theorem enqueue_K_string_forms_any_order
    (x : Externals Node Ingress GroupID Request)
    (h : enqueueRequestsForNodeEvent Ingress GroupID Err) (items items0 : List Ingress) (K : Nat)
    (hl : h.k8sCache = Except.ok items)
    (_hok : ∀ ing, ing ∈ items → x.MatchesIngressClass h.ingressClass ing = true →
      (h.ingGroupBuilder ing).2 = none)
    (hK : ((builtGroupIDs x h items).map x.GroupIDString).dedup.length = K)
    (hp : items0.Perm items) :
    (queueAdds (enqueueImpactedIngresses x h : Trace Node Ingress Request Err)).length = K ∧
    (queueAdds (enqueueImpactedIngresses x (withListing h items0) :
      Trace Node Ingress Request Err)).length = K ∧
    (∃ ids ids0 : List GroupID,
      queueAdds (enqueueImpactedIngresses x h : Trace Node Ingress Request Err) =
        ids.map x.EncodeToReconcileRequest ∧
      queueAdds (enqueueImpactedIngresses x (withListing h items0) :
        Trace Node Ingress Request Err) = ids0.map x.EncodeToReconcileRequest ∧
      ∀ s, s ∈ ids0.map x.GroupIDString ↔ s ∈ ids.map x.GroupIDString) ∧
    ((∀ a, a ∈ builtGroupIDs x h items → ∀ b, b ∈ builtGroupIDs x h items →
        x.GroupIDString a = x.GroupIDString b →
        x.EncodeToReconcileRequest a = x.EncodeToReconcileRequest b) →
      ∀ r, r ∈ queueAdds (enqueueImpactedIngresses x (withListing h items0) :
          Trace Node Ingress Request Err) ↔
        r ∈ queueAdds (enqueueImpactedIngresses x h : Trace Node Ingress Request Err)) := by
  have hperm : (builtGroupIDs x (withListing h items0) items0).Perm (builtGroupIDs x h items) :=
    builtGroupIDs_perm x h hp
  have hl0 : (withListing h items0).k8sCache = Except.ok items0 := rfl
  have hcard : ((builtGroupIDs x h items).map x.GroupIDString).toFinset.card = K := by
    rw [List.card_toFinset, hK]
  refine ⟨?_, ?_, ?_, ?_⟩
  · rw [queueAdds_length x h items hl, hcard]
  · rw [queueAdds_length x (withListing h items0) items0 hl0, ← hcard]
    congr 1
    exact List.toFinset_eq_of_perm _ _ (hperm.map _)
  · refine ⟨firstOccurrences x.GroupIDString [] (builtGroupIDs x h items),
      firstOccurrences x.GroupIDString [] (builtGroupIDs x (withListing h items0) items0),
      queueAdds_pass_ok x h items hl, queueAdds_pass_ok x _ items0 hl0, ?_⟩
    intro s
    rw [firstOccurrences_keys, firstOccurrences_keys]
    exact (hperm.map _).mem_iff
  · intro henc r
    rw [queueAdds_pass_ok x h items hl, queueAdds_pass_ok x (withListing h items0) items0 hl0]
    constructor
    · intro hr
      obtain ⟨g, hg, rfl⟩ := List.mem_map.1 hr
      have hgi : g ∈ builtGroupIDs x h items :=
        hperm.mem_iff.1 (firstOccurrences_subset _ _ _ _ hg)
      rcases firstOccurrences_covers x.GroupIDString _ [] g hgi with hk | ⟨g0, hg0, hk⟩
      · simp at hk
      · rw [← henc g0 (firstOccurrences_subset _ _ _ _ hg0) g hgi hk]
        exact List.mem_map_of_mem _ hg0
    · intro hr
      obtain ⟨g, hg, rfl⟩ := List.mem_map.1 hr
      have hgi : g ∈ builtGroupIDs x h items := firstOccurrences_subset _ _ _ _ hg
      rcases firstOccurrences_covers x.GroupIDString _ [] g (hperm.mem_iff.2 hgi) with
        hk | ⟨g0, hg0, hk⟩
      · simp at hk
      · rw [← henc g0 (hperm.mem_iff.1 (firstOccurrences_subset _ _ _ _ hg0)) g hgi hk]
        exact List.mem_map_of_mem _ hg0

/-- Witness of C1 at the example of the specification: A and B in group g1, C in
group g2, listed as A, B, C and as C, B, A: two calls in either order, for the
same two requests. -/
theorem enqueue_K_string_forms_any_order_witness :
    (queueAdds (enqueueImpactedIngresses demoExternals
        (demoHandler demoBuilder (Except.ok [0, 1, 2])) : Trace Bool Nat Nat String)).length = 2 ∧
    (queueAdds (enqueueImpactedIngresses demoExternals
        (withListing (demoHandler demoBuilder (Except.ok [0, 1, 2])) [2, 1, 0]) :
        Trace Bool Nat Nat String)).length = 2 ∧
    ∀ r, r ∈ queueAdds (enqueueImpactedIngresses demoExternals
          (withListing (demoHandler demoBuilder (Except.ok [0, 1, 2])) [2, 1, 0]) :
          Trace Bool Nat Nat String) ↔
      r ∈ queueAdds (enqueueImpactedIngresses demoExternals
          (demoHandler demoBuilder (Except.ok [0, 1, 2])) : Trace Bool Nat Nat String) :=
  have hw := enqueue_K_string_forms_any_order demoExternals
    (demoHandler demoBuilder (Except.ok [0, 1, 2])) [0, 1, 2] [2, 1, 0] 2 rfl (by decide)
    (by decide) (by decide)
  ⟨hw.1, hw.2.1, hw.2.2.2 (by decide)⟩

/-- C2: the pass at a listing whose only item X matches the class and makes the
group builder fail.  The error is logged, and the identifier returned next to
the error is still added to the queue, whereas the pass over the listing
without X adds nothing: X is not skipped. -/
theorem build_failure_is_not_skipped :
    queueAdds (enqueueImpactedIngresses demoExternals
        (demoHandler demoFailingBuilder (Except.ok [7])) : Trace Bool Nat Nat String) = [0] ∧
    loggedErrors (enqueueImpactedIngresses demoExternals
        (demoHandler demoFailingBuilder (Except.ok [7])) : Trace Bool Nat Nat String) =
      [("no group", "failed to build ingress group ID", [("ingress", "default/x")])] ∧
    queueAdds (enqueueImpactedIngresses demoExternals
        (demoHandler demoFailingBuilder (Except.ok [])) : Trace Bool Nat Nat String) = [] := by
  decide

/-- C3: in a pass over a successful listing, for every item Y that matches the
class and whose group build succeeds with identifier `g`, the queue receives
the request of an identifier built in this pass with the string form of `g`,
whatever else the listing holds and wherever a failing item stands in it. -/
theorem build_failure_does_not_suppress_others
    (x : Externals Node Ingress GroupID Request)
    (h : enqueueRequestsForNodeEvent Ingress GroupID Err) (items : List Ingress)
    (Y : Ingress) (g : GroupID)
    (hl : h.k8sCache = Except.ok items) (hY : Y ∈ items)
    (hm : x.MatchesIngressClass h.ingressClass Y = true)
    (hb : h.ingGroupBuilder Y = (g, none)) :
    ∃ g0, g0 ∈ builtGroupIDs x h items ∧ x.GroupIDString g0 = x.GroupIDString g ∧
      x.EncodeToReconcileRequest g0 ∈
        queueAdds (enqueueImpactedIngresses x h : Trace Node Ingress Request Err) := by
  have hg : g ∈ builtGroupIDs x h items := by
    refine List.mem_map.2 ⟨Y, List.mem_filter.2 ⟨hY, by simpa using hm⟩, ?_⟩
    simp [hb]
  rcases firstOccurrences_covers x.GroupIDString _ [] g hg with hk | ⟨g0, hg0, hk⟩
  · simp at hk
  · refine ⟨g0, firstOccurrences_subset _ _ _ _ hg0, hk, ?_⟩
    rw [queueAdds_pass_ok x h items hl]
    exact List.mem_map_of_mem _ hg0

/-- Witness of C3: the failing item 7 is listed before item 3, and the
identifier it returns has the string form of the identifier of item 3. -/
theorem build_failure_does_not_suppress_others_witness :
    ∃ g0, g0 ∈ builtGroupIDs demoExternals (demoHandler demoFailingBuilder (Except.ok [7, 3]))
        [7, 3] ∧
      demoExternals.GroupIDString g0 = demoExternals.GroupIDString 3 ∧
      demoExternals.EncodeToReconcileRequest g0 ∈
        queueAdds (enqueueImpactedIngresses demoExternals
          (demoHandler demoFailingBuilder (Except.ok [7, 3])) : Trace Bool Nat Nat String) :=
  build_failure_does_not_suppress_others demoExternals
    (demoHandler demoFailingBuilder (Except.ok [7, 3])) [7, 3] 3 3 rfl (by decide) (by decide) rfl

/-- C4: for every listing outcome, the requests added by one pass are the
encodings of group identifiers with pairwise distinct string forms, each of
them built in this pass. -/
theorem pass_never_submits_a_group_twice
    (x : Externals Node Ingress GroupID Request)
    (h : enqueueRequestsForNodeEvent Ingress GroupID Err) :
    ∃ ids : List GroupID,
      queueAdds (enqueueImpactedIngresses x h : Trace Node Ingress Request Err) =
        ids.map x.EncodeToReconcileRequest ∧
      (ids.map x.GroupIDString).Nodup ∧
      ∀ items, h.k8sCache = Except.ok items → ids.Sublist (builtGroupIDs x h items) :=
  queueAdds_distinct x h

/-- C5: an Update event whose old and new node have the same eligibility makes
no `queue.Add` call, lists nothing and logs nothing: the handler returns after
its two calls of the eligibility predicate. -/
theorem update_same_eligibility_is_silent
    (x : Externals Node Ingress GroupID Request)
    (h : enqueueRequestsForNodeEvent Ingress GroupID Err) (N0 N1 : Node)
    (heq : x.IsNodeSuitableAsTrafficProxy N0 = x.IsNodeSuitableAsTrafficProxy N1) :
    (Update x h ⟨RuntimeObject.node N0, RuntimeObject.node N1⟩ :
        Option (Trace Node Ingress Request Err)) =
      some [Call.isNodeSuitableAsTrafficProxy N0, Call.isNodeSuitableAsTrafficProxy N1] ∧
    (Update x h ⟨RuntimeObject.node N0, RuntimeObject.node N1⟩ :
        Option (Trace Node Ingress Request Err)).map queueAdds = some [] ∧
    (Update x h ⟨RuntimeObject.node N0, RuntimeObject.node N1⟩ :
        Option (Trace Node Ingress Request Err)).map callsList = some false := by
  simp [Update, heq, queueAdds, callsList]

/-- Witness of C5: both nodes eligible, three ingresses in the listing. -/
theorem update_same_eligibility_is_silent_witness :
    (Update demoExternals (demoHandler demoBuilder (Except.ok [0, 1, 2]))
        ⟨RuntimeObject.node true, RuntimeObject.node true⟩ :
        Option (Trace Bool Nat Nat String)) =
      some [Call.isNodeSuitableAsTrafficProxy true, Call.isNodeSuitableAsTrafficProxy true] ∧
    (Update demoExternals (demoHandler demoBuilder (Except.ok [0, 1, 2]))
        ⟨RuntimeObject.node true, RuntimeObject.node true⟩ :
        Option (Trace Bool Nat Nat String)).map queueAdds = some [] ∧
    (Update demoExternals (demoHandler demoBuilder (Except.ok [0, 1, 2]))
        ⟨RuntimeObject.node true, RuntimeObject.node true⟩ :
        Option (Trace Bool Nat Nat String)).map callsList = some false :=
  update_same_eligibility_is_silent demoExternals (demoHandler demoBuilder (Except.ok [0, 1, 2]))
    true true rfl

/-- C6: an Update event whose old and new node differ in eligibility runs one
full pass after the two calls of the eligibility predicate; its `queue.Add`
calls are those of the pass, and they encode identifiers with pairwise distinct
string forms. -/
theorem update_flipped_eligibility_runs_pass
    (x : Externals Node Ingress GroupID Request)
    (h : enqueueRequestsForNodeEvent Ingress GroupID Err) (N0 N1 : Node)
    (hne : x.IsNodeSuitableAsTrafficProxy N0 ≠ x.IsNodeSuitableAsTrafficProxy N1) :
    (Update x h ⟨RuntimeObject.node N0, RuntimeObject.node N1⟩ :
        Option (Trace Node Ingress Request Err)) =
      some (Call.isNodeSuitableAsTrafficProxy N0 :: Call.isNodeSuitableAsTrafficProxy N1 ::
        enqueueImpactedIngresses x h) ∧
    (Update x h ⟨RuntimeObject.node N0, RuntimeObject.node N1⟩ :
        Option (Trace Node Ingress Request Err)).map queueAdds =
      some (queueAdds (enqueueImpactedIngresses x h : Trace Node Ingress Request Err)) ∧
    ∃ ids : List GroupID,
      (Update x h ⟨RuntimeObject.node N0, RuntimeObject.node N1⟩ :
        Option (Trace Node Ingress Request Err)).map queueAdds =
          some (ids.map x.EncodeToReconcileRequest) ∧
      (ids.map x.GroupIDString).Nodup := by
  have hu : (Update x h ⟨RuntimeObject.node N0, RuntimeObject.node N1⟩ :
        Option (Trace Node Ingress Request Err)) =
      some (Call.isNodeSuitableAsTrafficProxy N0 :: Call.isNodeSuitableAsTrafficProxy N1 ::
        enqueueImpactedIngresses x h) := by
    simp [Update, hne]
  obtain ⟨ids, hids, hnd, _⟩ := @queueAdds_distinct Node Ingress GroupID Request Err x h
  have ha : (Update x h ⟨RuntimeObject.node N0, RuntimeObject.node N1⟩ :
        Option (Trace Node Ingress Request Err)).map queueAdds =
      some (queueAdds (enqueueImpactedIngresses x h : Trace Node Ingress Request Err)) := by
    rw [hu]
    rfl
  exact ⟨hu, ha, ids, by rw [ha, hids], hnd⟩

/-- Witness of C6: the node turns eligible while A, B (group g1) and C (group
g2) are listed. -/
theorem update_flipped_eligibility_runs_pass_witness :
    (Update demoExternals (demoHandler demoBuilder (Except.ok [0, 1, 2]))
        ⟨RuntimeObject.node false, RuntimeObject.node true⟩ :
        Option (Trace Bool Nat Nat String)) =
      some (Call.isNodeSuitableAsTrafficProxy false :: Call.isNodeSuitableAsTrafficProxy true ::
        enqueueImpactedIngresses demoExternals (demoHandler demoBuilder (Except.ok [0, 1, 2]))) ∧
    (Update demoExternals (demoHandler demoBuilder (Except.ok [0, 1, 2]))
        ⟨RuntimeObject.node false, RuntimeObject.node true⟩ :
        Option (Trace Bool Nat Nat String)).map queueAdds =
      some (queueAdds (enqueueImpactedIngresses demoExternals
        (demoHandler demoBuilder (Except.ok [0, 1, 2])) : Trace Bool Nat Nat String)) ∧
    ∃ ids : List Nat,
      (Update demoExternals (demoHandler demoBuilder (Except.ok [0, 1, 2]))
        ⟨RuntimeObject.node false, RuntimeObject.node true⟩ :
        Option (Trace Bool Nat Nat String)).map queueAdds =
          some (ids.map demoExternals.EncodeToReconcileRequest) ∧
      (ids.map demoExternals.GroupIDString).Nodup :=
  update_flipped_eligibility_runs_pass demoExternals
    (demoHandler demoBuilder (Except.ok [0, 1, 2])) false true (by decide)

/-- C7: a Create event for node `N` calls the eligibility predicate once and
then runs the full pass exactly when `N` is eligible; for a node that is not
eligible it lists nothing, adds nothing to the queue and logs no error. -/
theorem create_runs_pass_iff_eligible
    (x : Externals Node Ingress GroupID Request)
    (h : enqueueRequestsForNodeEvent Ingress GroupID Err) (N : Node) :
    (Create x h ⟨RuntimeObject.node N⟩ : Option (Trace Node Ingress Request Err)) =
      some (Call.isNodeSuitableAsTrafficProxy N ::
        (if x.IsNodeSuitableAsTrafficProxy N then enqueueImpactedIngresses x h else [])) ∧
    (Create x h ⟨RuntimeObject.node N⟩ : Option (Trace Node Ingress Request Err)).map callsList =
      some (x.IsNodeSuitableAsTrafficProxy N) ∧
    (x.IsNodeSuitableAsTrafficProxy N = false →
      (Create x h ⟨RuntimeObject.node N⟩ :
        Option (Trace Node Ingress Request Err)).map queueAdds = some [] ∧
      (Create x h ⟨RuntimeObject.node N⟩ :
        Option (Trace Node Ingress Request Err)).map loggedErrors = some []) := by
  cases hN : x.IsNodeSuitableAsTrafficProxy N <;>
    simp [Create, hN, callsList, queueAdds, loggedErrors, enqueueImpactedIngresses]

/-- C8: a Delete event for node `N` calls the eligibility predicate once and
then runs the full pass exactly when `N` is eligible; for a node that is not
eligible it lists nothing, adds nothing to the queue and logs no error. -/
theorem delete_runs_pass_iff_eligible
    (x : Externals Node Ingress GroupID Request)
    (h : enqueueRequestsForNodeEvent Ingress GroupID Err) (N : Node) :
    (Delete x h ⟨RuntimeObject.node N⟩ : Option (Trace Node Ingress Request Err)) =
      some (Call.isNodeSuitableAsTrafficProxy N ::
        (if x.IsNodeSuitableAsTrafficProxy N then enqueueImpactedIngresses x h else [])) ∧
    (Delete x h ⟨RuntimeObject.node N⟩ : Option (Trace Node Ingress Request Err)).map callsList =
      some (x.IsNodeSuitableAsTrafficProxy N) ∧
    (x.IsNodeSuitableAsTrafficProxy N = false →
      (Delete x h ⟨RuntimeObject.node N⟩ :
        Option (Trace Node Ingress Request Err)).map queueAdds = some [] ∧
      (Delete x h ⟨RuntimeObject.node N⟩ :
        Option (Trace Node Ingress Request Err)).map loggedErrors = some []) := by
  cases hN : x.IsNodeSuitableAsTrafficProxy N <;>
    simp [Delete, hN, callsList, queueAdds, loggedErrors, enqueueImpactedIngresses]

/-- C9: a Generic event, whatever its payload, returns normally with exactly the
trace of one full pass, hence with its `queue.Add` calls and its error reports,
and never calls the eligibility predicate. -/
theorem generic_always_runs_pass
    (x : Externals Node Ingress GroupID Request)
    (h : enqueueRequestsForNodeEvent Ingress GroupID Err) (e : GenericEvent Node) :
    (Generic x h e : Option (Trace Node Ingress Request Err)) =
      some (enqueueImpactedIngresses x h) ∧
    (Generic x h e : Option (Trace Node Ingress Request Err)).map queueAdds =
      some (queueAdds (enqueueImpactedIngresses x h : Trace Node Ingress Request Err)) ∧
    (Generic x h e : Option (Trace Node Ingress Request Err)).map loggedErrors =
      some (loggedErrors (enqueueImpactedIngresses x h : Trace Node Ingress Request Err)) ∧
    (Generic x h e : Option (Trace Node Ingress Request Err)).map callsEligibility =
      some false := by
  refine ⟨rfl, rfl, rfl, ?_⟩
  show some (callsEligibility (enqueueImpactedIngresses x h : Trace Node Ingress Request Err)) = _
  rw [callsEligibility_pass]

/-- C10: when the cache listing returns an error, the pass consists of the
listing call and one logged error; it makes no `queue.Add` call and calls
neither the class filter nor the group builder. -/
theorem listing_error_aborts_pass
    (x : Externals Node Ingress GroupID Request)
    (h : enqueueRequestsForNodeEvent Ingress GroupID Err) (err : Err)
    (hl : h.k8sCache = Except.error err) :
    (enqueueImpactedIngresses x h : Trace Node Ingress Request Err) =
      [Call.cacheList, Call.loggerError err "failed to list Ingresses" []] ∧
    queueAdds (enqueueImpactedIngresses x h : Trace Node Ingress Request Err) = [] ∧
    loggedErrors (enqueueImpactedIngresses x h : Trace Node Ingress Request Err) =
      [(err, "failed to list Ingresses", [])] ∧
    callsClassFilter (enqueueImpactedIngresses x h : Trace Node Ingress Request Err) = false ∧
    callsGroupBuilder (enqueueImpactedIngresses x h : Trace Node Ingress Request Err) = false := by
  simp [enqueueImpactedIngresses, hl, queueAdds, loggedErrors, callsClassFilter,
    callsGroupBuilder]

/-- Witness of C10: the cache reports that it is not synced. -/
theorem listing_error_aborts_pass_witness :
    (enqueueImpactedIngresses demoExternals
        (demoHandler demoBuilder (Except.error "cache not synced")) :
        Trace Bool Nat Nat String) =
      [Call.cacheList, Call.loggerError "cache not synced" "failed to list Ingresses" []] ∧
    queueAdds (enqueueImpactedIngresses demoExternals
        (demoHandler demoBuilder (Except.error "cache not synced")) :
        Trace Bool Nat Nat String) = [] ∧
    loggedErrors (enqueueImpactedIngresses demoExternals
        (demoHandler demoBuilder (Except.error "cache not synced")) :
        Trace Bool Nat Nat String) = [("cache not synced", "failed to list Ingresses", [])] ∧
    callsClassFilter (enqueueImpactedIngresses demoExternals
        (demoHandler demoBuilder (Except.error "cache not synced")) :
        Trace Bool Nat Nat String) = false ∧
    callsGroupBuilder (enqueueImpactedIngresses demoExternals
        (demoHandler demoBuilder (Except.error "cache not synced")) :
        Trace Bool Nat Nat String) = false :=
  listing_error_aborts_pass demoExternals
    (demoHandler demoBuilder (Except.error "cache not synced")) "cache not synced" rfl

/-- C11: in a pass over a successful listing the logged errors are, in listing
order, one report for each item that matches the class and whose group build
fails, carrying the error of the builder and the namespaced name of that item;
no other item contributes a report. -/
theorem build_errors_reported_per_resource
    (x : Externals Node Ingress GroupID Request)
    (h : enqueueRequestsForNodeEvent Ingress GroupID Err) (items : List Ingress)
    (hl : h.k8sCache = Except.ok items) :
    loggedErrors (enqueueImpactedIngresses x h : Trace Node Ingress Request Err) =
      (items.filter (fun ing => x.MatchesIngressClass h.ingressClass ing)).filterMap
        (fun ing => (h.ingGroupBuilder ing).2.map
          (fun err =>
            (err, "failed to build ingress group ID", [("ingress", x.NamespacedName ing)]))) :=
  loggedErrors_pass_ok x h items hl

/-- Witness of C11: ingress 12 is of another class, ingress 7 fails and is
listed twice, ingress 0 builds; two reports, both for ingress 7. -/
theorem build_errors_reported_per_resource_witness :
    loggedErrors (enqueueImpactedIngresses demoExternals
        (demoHandler demoFailingBuilder (Except.ok [12, 7, 0, 7])) : Trace Bool Nat Nat String) =
      ([12, 7, 0, 7].filter
        (fun ing => demoExternals.MatchesIngressClass
          (demoHandler demoFailingBuilder (Except.ok [12, 7, 0, 7])).ingressClass ing)).filterMap
        (fun ing => ((demoHandler demoFailingBuilder
            (Except.ok [12, 7, 0, 7])).ingGroupBuilder ing).2.map
          (fun err => (err, "failed to build ingress group ID",
            [("ingress", demoExternals.NamespacedName ing)]))) :=
  build_errors_reported_per_resource demoExternals
    (demoHandler demoFailingBuilder (Except.ok [12, 7, 0, 7])) [12, 7, 0, 7] rfl

/-- C12: the items that do not match the class leave no mark on a pass: its
`queue.Add` calls and its error reports are those of the pass over the listing
without them, and the group builder is called on the matching items only. -/
theorem non_matching_resources_are_skipped
    (x : Externals Node Ingress GroupID Request)
    (h : enqueueRequestsForNodeEvent Ingress GroupID Err) (items : List Ingress)
    (hl : h.k8sCache = Except.ok items) :
    queueAdds (enqueueImpactedIngresses x h : Trace Node Ingress Request Err) =
      queueAdds (enqueueImpactedIngresses x
        (withListing h (items.filter (fun ing => x.MatchesIngressClass h.ingressClass ing))) :
        Trace Node Ingress Request Err) ∧
    loggedErrors (enqueueImpactedIngresses x h : Trace Node Ingress Request Err) =
      loggedErrors (enqueueImpactedIngresses x
        (withListing h (items.filter (fun ing => x.MatchesIngressClass h.ingressClass ing))) :
        Trace Node Ingress Request Err) ∧
    groupBuilderCalls (enqueueImpactedIngresses x h : Trace Node Ingress Request Err) =
      items.filter (fun ing => x.MatchesIngressClass h.ingressClass ing) := by
  have hf : (withListing h
      (items.filter (fun ing => x.MatchesIngressClass h.ingressClass ing))).k8sCache =
      Except.ok (items.filter (fun ing => x.MatchesIngressClass h.ingressClass ing)) := rfl
  refine ⟨?_, ?_, ?_⟩
  · rw [queueAdds_pass_ok x h items hl, queueAdds_pass_ok x _ _ hf]
    exact congrArg (fun ids => (firstOccurrences x.GroupIDString [] ids).map
      x.EncodeToReconcileRequest) (builtGroupIDs_filter x h items).symm
  · rw [loggedErrors_pass_ok x h items hl, loggedErrors_pass_ok x _ _ hf]
    exact (buildErrorReports_filter x h items).symm
  · simp [enqueueImpactedIngresses, hl, groupBuilderCalls, groupBuilderCalls_enqueueLoop]

/-- Witness of C12: on ingress 12 the builder would fail, on ingress 13 it
would return the unseen group 2; both are of another class. -/
theorem non_matching_resources_are_skipped_witness :
    queueAdds (enqueueImpactedIngresses demoExternals
        (demoHandler demoOtherClassBuilder (Except.ok [12, 13, 0])) :
        Trace Bool Nat Nat String) =
      queueAdds (enqueueImpactedIngresses demoExternals
        (withListing (demoHandler demoOtherClassBuilder (Except.ok [12, 13, 0]))
          ([12, 13, 0].filter (fun ing => demoExternals.MatchesIngressClass
            (demoHandler demoOtherClassBuilder (Except.ok [12, 13, 0])).ingressClass ing))) :
        Trace Bool Nat Nat String) ∧
    loggedErrors (enqueueImpactedIngresses demoExternals
        (demoHandler demoOtherClassBuilder (Except.ok [12, 13, 0])) :
        Trace Bool Nat Nat String) =
      loggedErrors (enqueueImpactedIngresses demoExternals
        (withListing (demoHandler demoOtherClassBuilder (Except.ok [12, 13, 0]))
          ([12, 13, 0].filter (fun ing => demoExternals.MatchesIngressClass
            (demoHandler demoOtherClassBuilder (Except.ok [12, 13, 0])).ingressClass ing))) :
        Trace Bool Nat Nat String) ∧
    groupBuilderCalls (enqueueImpactedIngresses demoExternals
        (demoHandler demoOtherClassBuilder (Except.ok [12, 13, 0])) :
        Trace Bool Nat Nat String) =
      [12, 13, 0].filter (fun ing => demoExternals.MatchesIngressClass
        (demoHandler demoOtherClassBuilder (Except.ok [12, 13, 0])).ingressClass ing) :=
  non_matching_resources_are_skipped demoExternals
    (demoHandler demoOtherClassBuilder (Except.ok [12, 13, 0])) [12, 13, 0] rfl

/-- C13: the requests of a pass over a successful listing are, in this order,
the encodings of the identifiers built for the matching items in listing
order, after every identifier whose string form occurred earlier is removed. -/
theorem adds_follow_first_occurrence_order
    (x : Externals Node Ingress GroupID Request)
    (h : enqueueRequestsForNodeEvent Ingress GroupID Err) (items : List Ingress)
    (hl : h.k8sCache = Except.ok items) :
    queueAdds (enqueueImpactedIngresses x h : Trace Node Ingress Request Err) =
      (keepFirstPerString x.GroupIDString (builtGroupIDs x h items)).map
        x.EncodeToReconcileRequest := by
  rw [queueAdds_pass_ok x h items hl, firstOccurrences_nil_eq_keepFirst]

/-- Witness of C13: the listing C, A, B, then ingress 3, then C again gives the
requests of the groups 2, 1 and 3, in this order. -/
theorem adds_follow_first_occurrence_order_witness :
    queueAdds (enqueueImpactedIngresses demoExternals
        (demoHandler demoBuilder (Except.ok [2, 0, 1, 3, 2])) : Trace Bool Nat Nat String) =
      (keepFirstPerString demoExternals.GroupIDString
        (builtGroupIDs demoExternals (demoHandler demoBuilder (Except.ok [2, 0, 1, 3, 2]))
          [2, 0, 1, 3, 2])).map demoExternals.EncodeToReconcileRequest ∧
    (keepFirstPerString demoExternals.GroupIDString
        (builtGroupIDs demoExternals (demoHandler demoBuilder (Except.ok [2, 0, 1, 3, 2]))
          [2, 0, 1, 3, 2])).map demoExternals.EncodeToReconcileRequest = [2, 1, 3] :=
  ⟨adds_follow_first_occurrence_order demoExternals
    (demoHandler demoBuilder (Except.ok [2, 0, 1, 3, 2])) [2, 0, 1, 3, 2] rfl, by decide⟩

/-- C14: a pass carries nothing over from earlier passes.  Its `queue.Add`
calls are fixed by the listing, the class and the results of the group builder
on the listed items that match; and two relevant events delivered one after the
other over a listing with `K` distinct string forms emit the same `K` requests
twice, `2 * K` calls in all. -/
theorem passes_are_self_contained
    (x : Externals Node Ingress GroupID Request)
    (h h0 : enqueueRequestsForNodeEvent Ingress GroupID Err) (items : List Ingress) (K : Nat)
    (e1 e2 : Event Node)
    (hl : h.k8sCache = Except.ok items) (hl0 : h0.k8sCache = Except.ok items)
    (hc : h0.ingressClass = h.ingressClass)
    (hb : ∀ ing, ing ∈ items → x.MatchesIngressClass h.ingressClass ing = true →
      (h0.ingGroupBuilder ing).1 = (h.ingGroupBuilder ing).1)
    (hK : ((builtGroupIDs x h items).map x.GroupIDString).dedup.length = K)
    (hr1 : isRelevant x e1 = true) (hr2 : isRelevant x e2 = true) :
    queueAdds (enqueueImpactedIngresses x h0 : Trace Node Ingress Request Err) =
      queueAdds (enqueueImpactedIngresses x h : Trace Node Ingress Request Err) ∧
    (queueAdds (enqueueImpactedIngresses x h : Trace Node Ingress Request Err)).length = K ∧
    (handleAll x h [e1, e2] : Option (Trace Node Ingress Request Err)).map queueAdds =
      some (queueAdds (enqueueImpactedIngresses x h : Trace Node Ingress Request Err) ++
        queueAdds (enqueueImpactedIngresses x h : Trace Node Ingress Request Err)) ∧
    (handleAll x h [e1, e2] : Option (Trace Node Ingress Request Err)).map
      (fun t => (queueAdds t).length) = some (2 * K) := by
  have hlen : (queueAdds (enqueueImpactedIngresses x h :
      Trace Node Ingress Request Err)).length = K := by
    rw [queueAdds_length x h items hl, List.card_toFinset, hK]
  have hnil : queueAdds ([] : Trace Node Ingress Request Err) = [] := rfl
  obtain ⟨p1, hp1, ha1⟩ := handle_relevant x h e1 hr1
  obtain ⟨p2, hp2, ha2⟩ := handle_relevant x h e2 hr2
  have hall : (handleAll x h [e1, e2] : Option (Trace Node Ingress Request Err)) =
      some ((p1 ++ enqueueImpactedIngresses x h) ++ ((p2 ++ enqueueImpactedIngresses x h) ++ [])) := by
    simp [handleAll, hp1, hp2]
  refine ⟨?_, hlen, ?_, ?_⟩
  · rw [queueAdds_pass_ok x h items hl, queueAdds_pass_ok x h0 items hl0,
      builtGroupIDs_congr x h h0 items hc hb]
  · rw [hall, Option.map_some']
    simp only [queueAdds_append, ha1, ha2, hnil, List.nil_append, List.append_nil]
  · rw [hall, Option.map_some']
    simp only [queueAdds_append, ha1, ha2, hnil, List.nil_append, List.append_nil,
      List.length_append, hlen]
    congr 1
    omega

/-- Witness of C14: a Generic event and then the creation of an eligible node,
over the listing A, B, C with the groups g1 and g2; the second handler differs
from the first in what its builder returns for the unlisted ingress 7. -/
theorem passes_are_self_contained_witness :
    queueAdds (enqueueImpactedIngresses demoExternals
        (demoHandler demoFailingBuilder (Except.ok [0, 1, 2])) : Trace Bool Nat Nat String) =
      queueAdds (enqueueImpactedIngresses demoExternals
        (demoHandler demoBuilder (Except.ok [0, 1, 2])) : Trace Bool Nat Nat String) ∧
    (queueAdds (enqueueImpactedIngresses demoExternals
        (demoHandler demoBuilder (Except.ok [0, 1, 2])) : Trace Bool Nat Nat String)).length = 2 ∧
    (handleAll demoExternals (demoHandler demoBuilder (Except.ok [0, 1, 2]))
        [Event.generic ⟨RuntimeObject.other⟩, Event.create ⟨RuntimeObject.node true⟩] :
        Option (Trace Bool Nat Nat String)).map queueAdds =
      some (queueAdds (enqueueImpactedIngresses demoExternals
          (demoHandler demoBuilder (Except.ok [0, 1, 2])) : Trace Bool Nat Nat String) ++
        queueAdds (enqueueImpactedIngresses demoExternals
          (demoHandler demoBuilder (Except.ok [0, 1, 2])) : Trace Bool Nat Nat String)) ∧
    (handleAll demoExternals (demoHandler demoBuilder (Except.ok [0, 1, 2]))
        [Event.generic ⟨RuntimeObject.other⟩, Event.create ⟨RuntimeObject.node true⟩] :
        Option (Trace Bool Nat Nat String)).map
      (fun t => (queueAdds t).length) = some (2 * 2) :=
  passes_are_self_contained demoExternals (demoHandler demoBuilder (Except.ok [0, 1, 2]))
    (demoHandler demoFailingBuilder (Except.ok [0, 1, 2])) [0, 1, 2] 2
    (Event.generic ⟨RuntimeObject.other⟩) (Event.create ⟨RuntimeObject.node true⟩)
    rfl rfl rfl (by decide) (by decide) rfl rfl

/-- C15: the handlers at events whose payload is not a node.  The type assertion
of Create, of Update and of Delete panics before any collaborator is called,
whatever the listing and the group builder would return; the handler does not
return normally. -/
theorem handlers_panic_on_other_payload :
    (Create demoExternals (demoHandler demoBuilder (Except.ok [0, 1, 2]))
        ⟨RuntimeObject.other⟩ : Option (Trace Bool Nat Nat String)) = none ∧
    (Update demoExternals (demoHandler demoBuilder (Except.ok [0, 1, 2]))
        ⟨RuntimeObject.node true, RuntimeObject.other⟩ :
        Option (Trace Bool Nat Nat String)) = none ∧
    (Delete demoExternals (demoHandler demoBuilder (Except.ok [0, 1, 2]))
        ⟨RuntimeObject.other⟩ : Option (Trace Bool Nat Nat String)) = none :=
  ⟨rfl, rfl, rfl⟩

/-- C16: when the group builder returns an error together with the identifier
`g` for a matching item X, and no matching item listed before X has the string
form of `g`, the error is logged for X, the request of `g` is added right after
the requests of the items before X, and every request added later belongs to
an identifier of a later item whose string form differs from that of `g`. -/
theorem failed_build_identifier_is_enqueued
    (x : Externals Node Ingress GroupID Request)
    (h : enqueueRequestsForNodeEvent Ingress GroupID Err) (before after : List Ingress)
    (X : Ingress) (g : GroupID) (err : Err)
    (hl : h.k8sCache = Except.ok (before ++ X :: after))
    (hm : x.MatchesIngressClass h.ingressClass X = true)
    (hb : h.ingGroupBuilder X = (g, some err))
    (hnew : ∀ g0, g0 ∈ builtGroupIDs x h before → x.GroupIDString g0 ≠ x.GroupIDString g) :
    (err, "failed to build ingress group ID", [("ingress", x.NamespacedName X)]) ∈
      loggedErrors (enqueueImpactedIngresses x h : Trace Node Ingress Request Err) ∧
    ∃ later : List GroupID,
      queueAdds (enqueueImpactedIngresses x h : Trace Node Ingress Request Err) =
        queueAdds (enqueueImpactedIngresses x (withListing h before) :
          Trace Node Ingress Request Err) ++
          x.EncodeToReconcileRequest g :: later.map x.EncodeToReconcileRequest ∧
      later.Sublist (builtGroupIDs x h after) ∧
      ∀ g0, g0 ∈ later → x.GroupIDString g0 ≠ x.GroupIDString g := by
  have hbX : builtGroupIDs x h (before ++ X :: after) =
      builtGroupIDs x h before ++ g :: builtGroupIDs x h after := by
    rw [builtGroupIDs_append]
    simp [builtGroupIDs, hm, hb]
  have hseen : x.GroupIDString g ∉
      ((firstOccurrences x.GroupIDString [] (builtGroupIDs x h before)).map
        x.GroupIDString).reverse ++ [] := by
    intro hmem
    simp only [List.append_nil, List.mem_reverse, List.mem_map] at hmem
    obtain ⟨g0, hg0, hk⟩ := hmem
    exact hnew g0 (firstOccurrences_subset _ _ _ _ hg0) hk
  constructor
  · rw [loggedErrors_pass_ok x h _ hl]
    unfold buildErrorReports
    refine List.mem_filterMap.2 ⟨X, List.mem_filter.2 ⟨by simp, by simpa using hm⟩, ?_⟩
    simp [hb]
  · refine ⟨firstOccurrences x.GroupIDString
      (x.GroupIDString g :: (((firstOccurrences x.GroupIDString []
        (builtGroupIDs x h before)).map x.GroupIDString).reverse ++ []))
      (builtGroupIDs x h after), ?_, firstOccurrences_sublist _ _ _, ?_⟩
    · have hpre : (withListing h before).k8sCache = Except.ok before := rfl
      rw [queueAdds_pass_ok x h _ hl, queueAdds_pass_ok x _ _ hpre, hbX,
        firstOccurrences_append]
      have hpb : builtGroupIDs x (withListing h before) before = builtGroupIDs x h before := rfl
      rw [hpb]
      simp only [firstOccurrences, hseen, if_false, List.map_append, List.map_cons]
    · intro g0 hg0 hk
      exact firstOccurrences_not_seen _ _ _ g0 hg0 (by simp [hk])

/-- Witness of C16: ingress 0 (group g1), then the failing ingress 7 with the
zero identifier, then ingress 3, whose identifier shares the empty string form,
and ingress 2 (group g2). -/
theorem failed_build_identifier_is_enqueued_witness :
    ("no group", "failed to build ingress group ID",
        [("ingress", demoExternals.NamespacedName 7)]) ∈
      loggedErrors (enqueueImpactedIngresses demoExternals
        (demoHandler demoFailingBuilder (Except.ok ([0] ++ 7 :: [3, 2]))) :
        Trace Bool Nat Nat String) ∧
    ∃ later : List Nat,
      queueAdds (enqueueImpactedIngresses demoExternals
        (demoHandler demoFailingBuilder (Except.ok ([0] ++ 7 :: [3, 2]))) :
        Trace Bool Nat Nat String) =
        queueAdds (enqueueImpactedIngresses demoExternals
          (withListing (demoHandler demoFailingBuilder (Except.ok ([0] ++ 7 :: [3, 2]))) [0]) :
          Trace Bool Nat Nat String) ++
          demoExternals.EncodeToReconcileRequest 0 ::
            later.map demoExternals.EncodeToReconcileRequest ∧
      later.Sublist (builtGroupIDs demoExternals
        (demoHandler demoFailingBuilder (Except.ok ([0] ++ 7 :: [3, 2]))) [3, 2]) ∧
      ∀ g0, g0 ∈ later → demoExternals.GroupIDString g0 ≠ demoExternals.GroupIDString 0 :=
  failed_build_identifier_is_enqueued demoExternals
    (demoHandler demoFailingBuilder (Except.ok ([0] ++ 7 :: [3, 2]))) [0] [3, 2] 7 0 "no group"
    rfl (by decide) rfl (by decide)

/-- C17: a pass over a successful listing makes at most as many `queue.Add`
calls as the listing has items that match the class; it makes none when the
listing is empty and none when no item matches. -/
theorem adds_at_most_matching_resources
    (x : Externals Node Ingress GroupID Request)
    (h : enqueueRequestsForNodeEvent Ingress GroupID Err) (items : List Ingress)
    (hl : h.k8sCache = Except.ok items) :
    (queueAdds (enqueueImpactedIngresses x h : Trace Node Ingress Request Err)).length ≤
      (items.filter (fun ing => x.MatchesIngressClass h.ingressClass ing)).length ∧
    (items = [] →
      queueAdds (enqueueImpactedIngresses x h : Trace Node Ingress Request Err) = []) ∧
    ((∀ ing, ing ∈ items → x.MatchesIngressClass h.ingressClass ing = false) →
      queueAdds (enqueueImpactedIngresses x h : Trace Node Ingress Request Err) = []) := by
  have hle : (queueAdds (enqueueImpactedIngresses x h :
      Trace Node Ingress Request Err)).length ≤
      (items.filter (fun ing => x.MatchesIngressClass h.ingressClass ing)).length := by
    rw [queueAdds_pass_ok x h items hl, List.length_map, ← builtGroupIDs_length x h items]
    exact (firstOccurrences_sublist _ _ _).length_le
  refine ⟨hle, ?_, ?_⟩
  · intro he
    subst he
    exact List.length_eq_zero.1 (Nat.le_zero.1 (by simpa using hle))
  · intro hno
    have hnil : items.filter (fun ing => x.MatchesIngressClass h.ingressClass ing) = [] := by
      apply List.filter_eq_nil_iff.2
      intro ing hing
      simp [hno ing hing]
    rw [hnil] at hle
    exact List.length_eq_zero.1 (Nat.le_zero.1 (by simpa using hle))

/-- Witness of C17: four items, three of the class, two groups: two calls. -/
theorem adds_at_most_matching_resources_witness :
    (queueAdds (enqueueImpactedIngresses demoExternals
        (demoHandler demoBuilder (Except.ok [0, 12, 1, 2])) : Trace Bool Nat Nat String)).length ≤
      ([0, 12, 1, 2].filter (fun ing => demoExternals.MatchesIngressClass
        (demoHandler demoBuilder (Except.ok [0, 12, 1, 2])).ingressClass ing)).length ∧
    (([0, 12, 1, 2] : List Nat) = [] →
      queueAdds (enqueueImpactedIngresses demoExternals
        (demoHandler demoBuilder (Except.ok [0, 12, 1, 2])) : Trace Bool Nat Nat String) = []) ∧
    ((∀ ing, ing ∈ ([0, 12, 1, 2] : List Nat) → demoExternals.MatchesIngressClass
        (demoHandler demoBuilder (Except.ok [0, 12, 1, 2])).ingressClass ing = false) →
      queueAdds (enqueueImpactedIngresses demoExternals
        (demoHandler demoBuilder (Except.ok [0, 12, 1, 2])) : Trace Bool Nat Nat String) = []) :=
  adds_at_most_matching_resources demoExternals
    (demoHandler demoBuilder (Except.ok [0, 12, 1, 2])) [0, 12, 1, 2] rfl

end Claims

end eventhandlers
